import Mathlib

/-!
Verification of the rainfall-gauge analysis pipeline (`analyze_floods.py`).

The script is a linear pandas pipeline: load a spreadsheet, clean the header,
pick the time column, coerce site columns to numbers, rank gauges by a
quality score, resample the chosen gauges to hourly buckets, and write CSV
and PNG outputs.  We embed the pipeline shallowly:

* a spreadsheet cell is modelled by its observable parses: whether it is
  blank (`isNA`), its value under `pd.to_datetime(·, errors="coerce")`
  (`asTime`, minutes since an epoch, `none` = `NaT`), and its value under
  `pd.to_numeric(·, errors="coerce")` (`asNum`, `none` = `NaN`);
* numeric data is idealized as exact rationals; the standard deviation,
  which needs a square root, lives in `ℝ`;
* pandas `NaN` results are modelled with `Option` (`none` = `NaN`),
  in particular the sample standard deviation of fewer than two
  observations is `none`;
* the process is modelled by `run`, which returns the exit code, the list
  of files written (in write order), the warnings printed, and the in-memory
  tables; each `sys.exit(1)` branch returns exit code 1 with no files.

The model starts at the frame obtained after header-row detection
(`df = pd.read_excel(DATA_PATH, header=header_row)`, line 64 of the script);
header-row detection itself concerns no claim.  A missing input file is the
`none` case of `run`'s input.
-/

namespace Floods

/-- Python's substring test `sub in s` on strings. -/
def strContains (s sub : String) : Bool :=
  (List.range (s.toList.length + 1)).any fun i => sub.toList.isPrefixOf (s.toList.drop i)

/-- ASCII lower-casing of one character (the labels in play are ASCII). -/
def lowerC (c : Char) : Char :=
  if 65 ≤ c.toNat && c.toNat ≤ 90 then Char.ofNat (c.toNat + 32) else c

/-- `str.lower()`. -/
def lowerS (s : String) : String := ⟨s.data.map lowerC⟩

/-- An ASCII whitespace character, as stripped by `str.strip()`. -/
def isWS (c : Char) : Bool := c == ' ' || c == '\t' || c == '\n' || c == '\r'

/-- `str.strip()`. -/
def trimS (s : String) : String :=
  ⟨((s.data.dropWhile isWS).reverse.dropWhile isWS).reverse⟩

/-- `s.startswith(pre)`. -/
def startsWithS (s pre : String) : Bool := pre.data.isPrefixOf s.data

/-- The non-null values of a column, in order (`s.dropna()`). -/
def nonNulls (l : List (Option ℚ)) : List ℚ := l.filterMap id

/-- One spreadsheet cell, by its observable parses. -/
structure Cell where
  isNA : Bool
  asTime : Option ℕ
  asNum : Option ℚ
deriving DecidableEq

instance : Inhabited Cell := ⟨⟨true, none, none⟩⟩

/-- A data frame: column labels plus row-major cells. -/
structure Frame where
  names : List String
  rows : List (List Cell)
deriving DecidableEq

/-- `str(c).lower().startswith('unnamed')` — placeholder column label. -/
def isUnnamed (s : String) : Bool := startsWithS (lowerS s) "unnamed"

/-- Line 69: `df.dropna(how='all')` — drop fully empty rows. -/
def dropAllNaRows (f : Frame) : Frame :=
  ⟨f.names, f.rows.filter fun r => r.any fun c => !c.isNA⟩

/-- Lines 72–74: strip column names and drop `Unnamed:*` placeholder columns
(together with their cells). -/
def stripClean (f : Frame) : Frame :=
  ⟨(f.names.map trimS).filter (fun n => !isUnnamed n),
   f.rows.map fun r =>
     (((f.names.map trimS).zip r).filter fun p => !isUnnamed p.1).map Prod.snd⟩

/-- Lines 69–74 combined: the cleaned frame. -/
def cleanF (raw : Frame) : Frame := stripClean (dropAllNaRows raw)

/-- Line 81: exact (case-insensitive, trimmed) match of the canonical label. -/
def exactPred (c : String) : Bool := lowerS (trimS c) == "data_time_utc"

/-- Line 87: one combined scan — a time-field substring (`data_time` or
`date/time`) or both `date` and `time` as substrings. -/
def comboPred (c : String) : Bool :=
  let cl := lowerS (trimS c)
  strContains cl "data_time" || strContains cl "date/time" ||
    (strContains cl "date" && strContains cl "time")

/-- Line 93: either `date` or `time` as a substring (this pass does not trim). -/
def loosePred (c : String) : Bool :=
  let cl := lowerS c
  strContains cl "date" || strContains cl "time"

/-- Lines 78–98: time-column selection.  `none` only when there are no
columns at all (where the script would crash on `df.columns[0]`). -/
def timeCol (cols : List String) : Option String :=
  match cols.find? exactPred with
  | some c => some c
  | none =>
    match cols.find? comboPred with
    | some c => some c
    | none =>
      match cols.find? loosePred with
      | some c => some c
      | none => cols.head?

/-- Line 96–98 reached: every detection pass failed and the first column is
used, with a warning. -/
def timeColFallback (cols : List String) : Bool :=
  (cols.find? exactPred).isNone && (cols.find? comboPred).isNone &&
    (cols.find? loosePred).isNone

/-- Modelled from the spec (claim C3's reading of §4.2): the same passes, but
with the time-field-substring stage strictly before the `date`-and-`time`
stage, each pass scanning all columns before the next is tried. -/
def timeColSpec (cols : List String) : Option String :=
  match cols.find? exactPred with
  | some c => some c
  | none =>
    match cols.find? (fun c =>
        strContains (lowerS (trimS c)) "data_time" || strContains (lowerS (trimS c)) "date/time") with
    | some c => some c
    | none =>
      match cols.find? (fun c =>
          strContains (lowerS (trimS c)) "date" && strContains (lowerS (trimS c)) "time") with
      | some c => some c
      | none =>
        match cols.find? loosePred with
        | some c => some c
        | none => cols.head?

/-- Lines 100–102: rename a placeholder time column to `DateTime`.  Dead code
after `stripClean` (no placeholder names survive), modelled for fidelity. -/
def renameIfUnnamed (f : Frame) (tc : String) : Frame × String :=
  if isUnnamed tc then
    (⟨f.names.map fun n => if n == tc then "DateTime" else n, f.rows⟩, "DateTime")
  else (f, tc)

/-- The cell of row `r` in the column labelled `c` (first match, as
`df[c]` with unique labels). -/
def cellAt (names : List String) (c : String) (r : List Cell) : Cell :=
  match (names.zip r).find? fun p => p.1 == c with
  | some p => p.2
  | none => default

/-- Lines 107–108: parse the time column and keep only rows with a valid
timestamp, pairing each surviving row with its timestamp. -/
def timedRows (f : Frame) (tc : String) : List (ℕ × List Cell) :=
  f.rows.filterMap fun r => (cellAt f.names tc r).asTime.map fun t => (t, r)

/-- Line 111: candidate site columns — everything but the time column and
placeholder names. -/
def siteNamesOf (f : Frame) (tc : String) : List String :=
  f.names.filter fun n => n != tc && !isUnnamed n

/-- Lines 114–115: the numeric coercion of column `n` over the time-valid
rows (`pd.to_numeric(df[n], errors="coerce")`). -/
def colVals (f : Frame) (tc n : String) : List (Option ℚ) :=
  (timedRows f tc).map fun r => (cellAt f.names n r.2).asNum

/-- Line 118: keep only site columns with at least one non-null value. -/
def retainedOf (f : Frame) (tc : String) : List String :=
  (siteNamesOf f tc).filter fun n => (colVals f tc n).any Option.isSome

/-- Line 123: `df.sort_values(by=time_col)` — sort rows by timestamp. -/
def sortByTime (l : List (ℕ × List Cell)) : List (ℕ × List Cell) :=
  List.insertionSort (fun a b => a.1 ≤ b.1) l

/-- Line 9: `TOP_N = 2` — how many gauges are auto-selected. -/
def TOP_N : ℕ := 2

/-- The mean of a list of rationals (junk value `0` on the empty list). -/
def listMean (xs : List ℚ) : ℚ := xs.sum / xs.length

/-- The sample variance (`ddof = 1`), meaningful only for two or more
observations (the only way it is used). -/
def sampleVar (xs : List ℚ) : ℚ :=
  ((xs.map fun x => (x - listMean xs) ^ 2).sum) / (xs.length - 1)

/-- `Series.std(skipna=True)` on the list of non-null values: the sample
standard deviation, `NaN` (here `none`) for fewer than two observations. -/
noncomputable def pdStd (xs : List ℚ) : Option ℝ :=
  if xs.length < 2 then none else some (Real.sqrt (sampleVar xs))

/-- One row of the gauge-quality table (lines 133–139).  `none` in `std` or
`score` models a `NaN` float. -/
structure QRow where
  site : String
  completeness : ℚ
  std : Option ℝ
  score : Option ℝ

/-- Lines 134–139: the quality record of one retained site column. -/
noncomputable def qualityRow (name : String) (col : List (Option ℚ)) : QRow :=
  let nn := nonNulls col
  let comp : ℚ := (nn.length : ℚ) / (col.length : ℚ)
  let v : Option ℝ := if nn.isEmpty then some 0 else pdStd nn
  { site := name
    completeness := comp
    std := v
    score := v.map fun s => (comp : ℝ) * 0.7 + s * 0.3 }

/-- Sort key of one `NaN`-able float for a descending sort with `NaN` placed
last: `NaN` is the bottom element. -/
noncomputable def okey (x : Option ℝ) : Bool ×ₗ ℝ := toLex (x.isSome, x.getD 0)

/-- The full sort key of a quality row: (score, completeness, std). -/
noncomputable def qkey (r : QRow) : (Bool ×ₗ ℝ) ×ₗ (ℚ ×ₗ (Bool ×ₗ ℝ)) :=
  toLex (okey r.score, toLex (r.completeness, okey r.std))

/-- Line 141–143 comparison: row `a` may precede row `b` in
`sort_values(by=["score", "completeness", "std"], ascending=False)`. -/
noncomputable def qGe (a b : QRow) : Prop := qkey b ≤ qkey a

noncomputable instance : DecidableRel qGe := fun _ _ => Classical.propDecidable _

instance : IsTotal QRow qGe := ⟨fun a b => le_total (qkey b) (qkey a)⟩

instance : IsTrans QRow qGe := ⟨fun _ _ _ h₁ h₂ => le_trans h₂ h₁⟩

/-- Lines 133–143: quality records of the given site columns, sorted
descending by (score, completeness, std). -/
noncomputable def quality (sites : List (String × List (Option ℚ))) : List QRow :=
  List.insertionSort qGe (sites.map fun p => qualityRow p.1 p.2)

/-- Lines 133–143 applied to the retained site columns of the frame. -/
noncomputable def qualityOf (f : Frame) (tc : String) : List QRow :=
  quality ((retainedOf f tc).map fun n => (n, colVals f tc n))

/-- Line 146: `quality["site"].head(TOP_N).tolist()`. -/
def chosen0Of (q : List QRow) (n : ℕ) : List String := (q.take n).map QRow.site

/-- The hour bucket of a timestamp in minutes (`resample('h')` bins). -/
def hourOf (t : ℕ) : ℕ := t / 60

/-- Minimum of a nonempty list of naturals (junk `0` on `[]`). -/
def natMinD : List ℕ → ℕ
  | [] => 0
  | a :: t => t.foldl Nat.min a

/-- Maximum of a nonempty list of naturals (junk `0` on `[]`). -/
def natMaxD : List ℕ → ℕ
  | [] => 0
  | a :: t => t.foldl Nat.max a

/-- The hour buckets of a resampled index: every hour from the floor of the
earliest timestamp to the floor of the latest, inclusive. -/
def hourRangeT (ts : List ℕ) : List ℕ :=
  match ts with
  | [] => []
  | _ =>
    let hs := ts.map hourOf
    List.range' (natMinD hs) (natMaxD hs - natMinD hs + 1)

/-- `sum(min_count=1)` over the cells of one bucket: `NaN` when no non-null
value contributes, otherwise the sum of the non-null values. -/
def sumMinCount1 (cells : List (Option ℚ)) : Option ℚ :=
  match nonNulls cells with
  | [] => none
  | vs => some vs.sum

/-- The cells of series `l` falling in hour bucket `b`. -/
def bucketCells (l : List (ℕ × Option ℚ)) (b : ℕ) : List (Option ℚ) :=
  (l.filter fun p => hourOf p.1 == b).map Prod.snd

/-- The resampled value of hour bucket `b`. -/
def bucketSum (l : List (ℕ × Option ℚ)) (b : ℕ) : Option ℚ :=
  sumMinCount1 (bucketCells l b)

/-- Line 161: `work.resample('h').sum(min_count=1)` for one site column,
as (bucket, value) pairs over the contiguous hourly index. -/
def resampleHourly (l : List (ℕ × Option ℚ)) : List (ℕ × Option ℚ) :=
  (hourRangeT (l.map Prod.fst)).map fun b => (b, bucketSum l b)

/-- `cumsum` over one column: running sum of the non-null values; a `NaN`
entry stays `NaN` and is skipped by the accumulation. -/
def cumsumAux (acc : ℚ) : List (Option ℚ) → List (Option ℚ)
  | [] => []
  | none :: t => none :: cumsumAux acc t
  | some v :: t => some (acc + v) :: cumsumAux (acc + v) t

/-- Line 162: `hourly.cumsum()` for one site column. -/
def cumsum (l : List (Option ℚ)) : List (Option ℚ) := cumsumAux 0 l

/-- Line 162 keeping the hourly index. -/
def cumPairs (l : List (ℕ × Option ℚ)) : List (ℕ × Option ℚ) :=
  (l.map Prod.fst).zip (cumsum (l.map Prod.snd))

/-- `rolling(w).sum()` with the default `min_periods = w`: a value appears
only when the full window exists and every entry in it is non-null. -/
def rollingSum (w : ℕ) (xs : List (Option ℚ)) : List (Option ℚ) :=
  (List.range xs.length).map fun i =>
    if w ≤ i + 1 then
      let win := (xs.drop (i + 1 - w)).take w
      if win.all Option.isSome then some (nonNulls win).sum else none
    else none

/-- `max()` of a column, skipping `NaN`; `NaN` when nothing remains. -/
def maxQ (l : List (Option ℚ)) : Option ℚ :=
  match nonNulls l with
  | [] => none
  | a :: t => some (t.foldl max a)

/-- `sum()` of a column with the default `min_count=0`: `NaN`s are skipped
and an all-`NaN` column sums to `0`. -/
def sumVals (l : List (ℕ × Option ℚ)) : ℚ := (l.filterMap Prod.snd).sum

/-- One row of the full-period summary (lines 164–169), before the
display rounding `.round(3)`. -/
structure SiteSummary where
  total : ℚ
  maxHour : Option ℚ
  max6h : Option ℚ
  max24h : Option ℚ
deriving DecidableEq

/-- Lines 164–169: the summary of one hourly site column. -/
def siteSummary (h : List (ℕ × Option ℚ)) : SiteSummary :=
  { total := sumVals h
    maxHour := maxQ (h.map Prod.snd)
    max6h := maxQ (rollingSum 6 (h.map Prod.snd))
    max24h := maxQ (rollingSum 24 (h.map Prod.snd)) }

/-- `DataFrame.idxmax` for one column: the index label of the first maximal
non-null value (`none` models the degenerate all-`NaN` case). -/
def idxmaxQ (l : List (ℕ × Option ℚ)) : Option ℕ :=
  match maxQ (l.map Prod.snd) with
  | none => none
  | some m => (l.find? fun p => p.2 == some m).map Prod.fst

/-- One row of the event-window summary (lines 196–202), before rounding. -/
structure EvtStats where
  total : ℚ
  maxHour : Option ℚ
  max6h : Option ℚ
  max24h : Option ℚ
  peakTime : Option ℕ
deriving DecidableEq

/-- Lines 196–202: event statistics of one sliced hourly column. -/
def evtStats (l : List (ℕ × Option ℚ)) : EvtStats :=
  { total := sumVals l
    maxHour := maxQ (l.map Prod.snd)
    max6h := maxQ (rollingSum 6 (l.map Prod.snd))
    max24h := maxQ (rollingSum 24 (l.map Prod.snd))
    peakTime := idxmaxQ l }

/-- Lines 13–15 and 127–130: the event-window constants (already parsed,
`none` = the constant is not a valid timestamp, the `except` path of line
191) and the optional station-name mapping. -/
structure Config where
  enableEvent : Bool
  eventStart : Option ℕ
  eventEnd : Option ℕ
  stationMap : List (String × String)

/-- `station_map.get(c, c)` of lines 214, 242, 250. -/
def lookupStation (m : List (String × String)) (c : String) : String :=
  match m.find? fun p => p.1 == c with
  | some p => p.2
  | none => c

/-- Lines 219, 250: filename-safe gauge label. -/
def safeName (s : String) : String := (s.replace " " "_").replace "@" "at"

/-- Lines 220, 251: the joined label part of a figure filename. -/
def joinedNames (m : List (String × String)) (cs : List String) : String :=
  String.intercalate "_vs_" (cs.map fun c => safeName (lookupStation m c))

def summaryPath : String := "outputs/summary_selected_gauges.csv"

def qualityPath : String := "outputs/gauge_quality.csv"

def hourlyPath : String := "outputs/hourly_selected_gauges.csv"

def cumPath : String := "outputs/cumulative_selected_gauges.csv"

def evtPath : String := "outputs/event_summary.csv"

def evtFigHourly (m : List (String × String)) (cs : List String) : String :=
  "outputs/hourly_event_" ++ joinedNames m cs ++ ".png"

def evtFigCum (m : List (String × String)) (cs : List String) : String :=
  "outputs/cumulative_event_" ++ joinedNames m cs ++ ".png"

def figHourly (m : List (String × String)) (cs : List String) : String :=
  "outputs/hourly_" ++ joinedNames m cs ++ ".png"

def figCum (m : List (String × String)) (cs : List String) : String :=
  "outputs/cumulative_" ++ joinedNames m cs ++ ".png"

def noTimeWarn : String := "No explicit Date/Time column found. Using first column."

def sliceWarn : String := "Could not slice event window"

def emptyEvtWarn : String := "No data found in event window"

/-- The in-memory tables of a successful run. -/
structure RunOutput where
  quality : List QRow
  chosen : List String
  hourly : List (String × List (ℕ × Option ℚ))
  cum : List (String × List (ℕ × Option ℚ))
  summary : List (String × SiteSummary)
  event : Option (List (String × EvtStats))

/-- The observable outcome of one process run: exit code, files written in
order, warnings printed, and (on success) the tables. -/
structure RunResult where
  exitCode : ℕ
  files : List String
  warnings : List String
  output : Option RunOutput

/-- A fatal `err(...)` call: print, exit 1, nothing written. -/
def fatal (ws : List String) : RunResult := ⟨1, [], ws, none⟩

/-- The shared hourly index of the resampled frame (`hourly.index`). -/
def hourIdx (f : Frame) (tc : String) : List ℕ :=
  hourRangeT ((timedRows f tc).map Prod.fst)

/-- The (time, value) series of chosen column `n` over the time-sorted rows
(lines 123 and 158). -/
def seriesOf (f : Frame) (tc n : String) : List (ℕ × Option ℚ) :=
  (sortByTime (timedRows f tc)).map fun r => (r.1, (cellAt f.names n r.2).asNum)

/-- Lines 111–273, after the time column is fixed: site columns, the
empty-column drop, gauge selection, resampling, summaries, the
event-window branch and all file writes, in program order. -/
noncomputable def runTail (cfg : Config) (f : Frame) (tc : String)
    (ws0 : List String) : RunResult :=
  if (siteNamesOf f tc).isEmpty then fatal ws0
  else if (retainedOf f tc).isEmpty then fatal ws0
  else
    let q := qualityOf f tc
    let c0 := chosen0Of q TOP_N
    if c0.isEmpty then fatal ws0
    else
      let cs := c0.filter fun n => !isUnnamed n
      if cs.isEmpty then fatal ws0
      else
        let hourlyF := cs.map fun n => (n, resampleHourly (seriesOf f tc n))
        let cumF := hourlyF.map fun p => (p.1, cumPairs p.2)
        let summF := hourlyF.map fun p => (p.1, siteSummary p.2)
        let base := [summaryPath, qualityPath, hourlyPath, cumPath]
        let figs := [figHourly cfg.stationMap cs, figCum cfg.stationMap cs]
        let mkOut := fun ev => some
          { quality := q, chosen := cs, hourly := hourlyF, cum := cumF
            summary := summF, event := ev }
        if cfg.enableEvent then
          match cfg.eventStart, cfg.eventEnd with
          | some s, some e =>
            let inWin := fun b => decide (s ≤ 60 * b) && decide (60 * b ≤ e)
            if ((hourIdx f tc).filter inWin).isEmpty then
              ⟨0, base ++ figs, ws0 ++ [emptyEvtWarn], mkOut none⟩
            else
              let ev := hourlyF.map fun p => (p.1, evtStats (p.2.filter fun q => inWin q.1))
              ⟨0, base ++ [evtPath, evtFigHourly cfg.stationMap cs,
                  evtFigCum cfg.stationMap cs] ++ figs, ws0, mkOut (some ev)⟩
          | _, _ =>
            ⟨0, base ++ figs, ws0 ++ [sliceWarn, emptyEvtWarn], mkOut none⟩
        else
          ⟨0, base ++ figs, ws0, mkOut none⟩

/-- The whole script, lines 32–273: `none` input means the data file is
missing (line 32).  Mirrors every `err` exit, every table, every file write
in order, and the event-window branch. -/
noncomputable def run (cfg : Config) (input : Option Frame) : RunResult :=
  match input with
  | none => fatal []
  | some raw =>
    match timeCol (cleanF raw).names with
    | none => fatal []
    | some tc0 =>
      let p := renameIfUnnamed (cleanF raw) tc0
      runTail cfg p.1 p.2
        (if timeColFallback (cleanF raw).names then [noTimeWarn] else [])

/-- The spec's ordering of quality rows: strictly descending lexicographically
by (score, completeness, std), on real-valued (`NaN`-free) records. -/
def specDesc (a b : QRow) : Prop :=
  ∃ sa sb va vb : ℝ, a.score = some sa ∧ b.score = some sb ∧
    a.std = some va ∧ b.std = some vb ∧
    (sb < sa ∨ (sa = sb ∧ (b.completeness < a.completeness ∨
      (a.completeness = b.completeness ∧ vb ≤ va))))

/-- Entry `a` of a cumulative series is at most a later entry `b`, on the
non-null entries. -/
def oLeQ (a b : Option ℚ) : Prop := ∀ x y : ℚ, a = some x → b = some y → x ≤ y

/-- Test fixture: a two-column frame with a labelled time column and one
rain gauge with two valid readings. -/
def F1 : Frame :=
  { names := ["data_time_utc", "G1"]
    rows := [[⟨false, some 0, none⟩, ⟨false, none, some 1⟩],
             [⟨false, some 60, none⟩, ⟨false, none, some 3⟩]] }

/-- Test fixture: event window disabled. -/
def cfg0 : Config := ⟨false, none, none, []⟩

/-- Test fixture: event window enabled with unparseable bounds. -/
def cfg1 : Config := ⟨true, none, none, []⟩

/-- Claim C2: for every retained site column (one with at least one non-null
value), the quality record has completeness = (non-null count) / (total
rows), a value in [0,1]; its variability is the standard deviation of the
non-null values (the sample standard deviation pandas computes, `none` = the
`NaN` it returns on fewer than two observations); and whenever the
variability is a number `v`, the score is 0.7·completeness + 0.3·v. -/
theorem C2_quality_record (name : String) (col : List (Option ℚ))
    (h : nonNulls col ≠ []) :
    (qualityRow name col).completeness = ((nonNulls col).length : ℚ) / (col.length : ℚ)
    ∧ 0 ≤ (qualityRow name col).completeness
    ∧ (qualityRow name col).completeness ≤ 1
    ∧ (qualityRow name col).std = pdStd (nonNulls col)
    ∧ ∀ v : ℝ, (qualityRow name col).std = some v →
        (qualityRow name col).score =
          some (0.7 * ((qualityRow name col).completeness : ℝ) + 0.3 * v) := by
  have hlen : 0 < col.length := by
    cases col with
    | nil => simp [nonNulls] at h
    | cons a t => simp
  have hle : (nonNulls col).length ≤ col.length := List.length_filterMap_le _ _
  have hne : (nonNulls col).isEmpty = false := by
    cases hnn : nonNulls col with
    | nil => exact absurd hnn h
    | cons a t => rfl
  refine ⟨by simp [qualityRow], ?_, ?_, by simp [qualityRow, hne], ?_⟩
  · simp only [qualityRow]
    positivity
  · simp only [qualityRow]
    rw [div_le_one (by exact_mod_cast hlen)]
    exact_mod_cast hle
  · intro v hv
    simp only [qualityRow, hne, Bool.false_eq_true, if_false] at hv ⊢
    rw [hv]
    simp only [Option.map_some']
    congr 1
    ring

/-- Witness for C2 at a concrete retained column. -/
theorem C2_quality_record_witness :
    (qualityRow "G1" [some 1, some 2, none]).completeness
        = ((nonNulls [some 1, some 2, none]).length : ℚ)
          / (([some 1, some 2, none] : List (Option ℚ)).length : ℚ)
    ∧ 0 ≤ (qualityRow "G1" [some 1, some 2, none]).completeness
    ∧ (qualityRow "G1" [some 1, some 2, none]).completeness ≤ 1
    ∧ (qualityRow "G1" [some 1, some 2, none]).std = pdStd (nonNulls [some 1, some 2, none])
    ∧ ∀ v : ℝ, (qualityRow "G1" [some 1, some 2, none]).std = some v →
        (qualityRow "G1" [some 1, some 2, none]).score =
          some (0.7 * ((qualityRow "G1" [some 1, some 2, none]).completeness : ℝ) + 0.3 * v) :=
  C2_quality_record "G1" [some 1, some 2, none] (by decide)

/-- Counterexample to claim C3: the script checks the time-field-substring
test and the date-and-time test in one combined left-to-right scan (line 87),
not as two separate priority stages.  With columns
`["date time", "my_data_time"]` the first column matches only the
date-and-time test and the second contains the time-field substring
`data_time`; the claimed priority picks `my_data_time`, the code picks
`date time`. -/
theorem C3_cex :
    timeCol ["date time", "my_data_time"] = some "date time"
    ∧ timeColSpec ["date time", "my_data_time"] = some "my_data_time"
    ∧ strContains "my_data_time" "data_time" = true
    ∧ strContains "date time" "data_time" = false := by
  decide

/-- Claim C3 as amended: time-column priority is (a) exact case-insensitive
match of the canonical name; then (b∨c) one combined scan for a column name
containing a time-field substring or both `date` and `time`; then (d) a name
containing either `date` or `time`; then (e) the first column.  Whenever a
column matching some pass exists, a matching column is selected (never the
blind fallback), so a clearly labelled time column always wins. -/
theorem C3_time_priority_merged (cols : List String) :
    (∀ c ∈ cols, exactPred c = true →
      ∃ d ∈ cols, exactPred d = true ∧ timeCol cols = some d)
    ∧ ((∀ c ∈ cols, exactPred c = false) → ∀ c ∈ cols, comboPred c = true →
      ∃ d ∈ cols, comboPred d = true ∧ timeCol cols = some d)
    ∧ ((∀ c ∈ cols, exactPred c = false ∧ comboPred c = false) →
      ∀ c ∈ cols, loosePred c = true →
      ∃ d ∈ cols, loosePred d = true ∧ timeCol cols = some d)
    ∧ ((∀ c ∈ cols, exactPred c = false ∧ comboPred c = false ∧ loosePred c = false) →
      timeCol cols = cols.head?) := by
  refine ⟨?_, ?_, ?_, ?_⟩
  · intro c hc hpc
    cases h1 : cols.find? exactPred with
    | none => exact absurd hpc (by simpa using List.find?_eq_none.mp h1 c hc)
    | some d =>
      exact ⟨d, List.mem_of_find?_eq_some h1, List.find?_some h1, by simp [timeCol, h1]⟩
  · intro hno c hc hpc
    have h1 : cols.find? exactPred = none :=
      List.find?_eq_none.mpr fun a ha => by simp [hno a ha]
    cases h2 : cols.find? comboPred with
    | none => exact absurd hpc (by simpa using List.find?_eq_none.mp h2 c hc)
    | some d =>
      exact ⟨d, List.mem_of_find?_eq_some h2, List.find?_some h2, by simp [timeCol, h1, h2]⟩
  · intro hno c hc hpc
    have h1 : cols.find? exactPred = none :=
      List.find?_eq_none.mpr fun a ha => by simp [(hno a ha).1]
    have h2 : cols.find? comboPred = none :=
      List.find?_eq_none.mpr fun a ha => by simp [(hno a ha).2]
    cases h3 : cols.find? loosePred with
    | none => exact absurd hpc (by simpa using List.find?_eq_none.mp h3 c hc)
    | some d =>
      exact ⟨d, List.mem_of_find?_eq_some h3, List.find?_some h3,
        by simp [timeCol, h1, h2, h3]⟩
  · intro hno
    have h1 : cols.find? exactPred = none :=
      List.find?_eq_none.mpr fun a ha => by simp [(hno a ha).1]
    have h2 : cols.find? comboPred = none :=
      List.find?_eq_none.mpr fun a ha => by simp [(hno a ha).2.1]
    have h3 : cols.find? loosePred = none :=
      List.find?_eq_none.mpr fun a ha => by simp [(hno a ha).2.2]
    simp [timeCol, h1, h2, h3]

/-- Witness for the amended C3: the canonical label is selected. -/
theorem C3_time_priority_merged_witness :
    ∃ d ∈ ["data_time_utc", "G1"], exactPred d = true
      ∧ timeCol ["data_time_utc", "G1"] = some d :=
  (C3_time_priority_merged ["data_time_utc", "G1"]).1 "data_time_utc"
    (by decide) (by decide)

/-- Claim C4: hourly resampling.  Every bucket of the hourly index carries
the `min_count=1` sum of the cells falling in that fixed one-hour bin: null
when no non-null value contributes (in particular when no row falls in the
bucket), the sum of the contributing values otherwise; and four 15-minute
samples of 0.1 inch within one clock hour yield exactly 0.4. -/
theorem C4_hourly_buckets (l : List (ℕ × Option ℚ)) (b : ℕ)
    (hb : b ∈ hourRangeT (l.map Prod.fst)) :
    (b, bucketSum l b) ∈ resampleHourly l
    ∧ (nonNulls (bucketCells l b) = [] → bucketSum l b = none)
    ∧ (nonNulls (bucketCells l b) ≠ [] →
        bucketSum l b = some (nonNulls (bucketCells l b)).sum)
    ∧ resampleHourly [(0, some (0.1 : ℚ)), (15, some 0.1), (30, some 0.1), (45, some 0.1)]
        = [(0, some (0.4 : ℚ))] := by
  refine ⟨List.mem_map.mpr ⟨b, hb, rfl⟩, ?_, ?_, by
    norm_num [resampleHourly, hourRangeT, hourOf, natMinD, natMaxD, bucketSum, bucketCells,
      sumMinCount1, nonNulls, List.range', List.filterMap_cons]⟩
  · intro h
    simp only [bucketSum, sumMinCount1, h]
  · intro h
    cases hnn : nonNulls (bucketCells l b) with
    | nil => exact absurd hnn h
    | cons a t => simp only [bucketSum, sumMinCount1, hnn]

/-- Witness for C4 at the four-sample input. -/
theorem C4_hourly_buckets_witness :
    ((0 : ℕ), bucketSum [(0, some (0.1 : ℚ)), (15, some 0.1), (30, some 0.1), (45, some 0.1)] 0)
        ∈ resampleHourly [(0, some (0.1 : ℚ)), (15, some 0.1), (30, some 0.1), (45, some 0.1)]
    ∧ (nonNulls (bucketCells [(0, some (0.1 : ℚ)), (15, some 0.1), (30, some 0.1), (45, some 0.1)] 0) = [] →
        bucketSum [(0, some (0.1 : ℚ)), (15, some 0.1), (30, some 0.1), (45, some 0.1)] 0 = none)
    ∧ (nonNulls (bucketCells [(0, some (0.1 : ℚ)), (15, some 0.1), (30, some 0.1), (45, some 0.1)] 0) ≠ [] →
        bucketSum [(0, some (0.1 : ℚ)), (15, some 0.1), (30, some 0.1), (45, some 0.1)] 0
          = some (nonNulls (bucketCells [(0, some (0.1 : ℚ)), (15, some 0.1), (30, some 0.1), (45, some 0.1)] 0)).sum)
    ∧ resampleHourly [(0, some (0.1 : ℚ)), (15, some 0.1), (30, some 0.1), (45, some 0.1)]
        = [(0, some (0.4 : ℚ))] :=
  C4_hourly_buckets [(0, some (0.1 : ℚ)), (15, some 0.1), (30, some 0.1), (45, some 0.1)] 0
    (by decide)

lemma cumsumAux_length (acc : ℚ) (l : List (Option ℚ)) :
    (cumsumAux acc l).length = l.length := by
  induction l generalizing acc with
  | nil => rfl
  | cons a t ih => cases a <;> simp [cumsumAux, ih]

lemma cumsumAux_getElem? (acc : ℚ) (l : List (Option ℚ)) (i : ℕ) :
    (cumsumAux acc l)[i]? =
      (l[i]?).map fun c => c.map fun _ => acc + (nonNulls (l.take (i + 1))).sum := by
  induction l generalizing acc i with
  | nil => simp [cumsumAux]
  | cons a t ih =>
    cases a with
    | none =>
      cases i with
      | zero => simp [cumsumAux, nonNulls]
      | succ j => simpa [cumsumAux, nonNulls] using ih acc j
    | some v =>
      cases i with
      | zero => simp [cumsumAux, nonNulls]
      | succ j =>
        have hih := ih (acc + v) j
        simp [cumsumAux, nonNulls, hih, add_assoc]

lemma cumsumAux_mono (l : List (Option ℚ)) :
    ∀ acc : ℚ, (∀ v : ℚ, some v ∈ l → 0 ≤ v) →
      (∀ y : ℚ, some y ∈ cumsumAux acc l → acc ≤ y)
      ∧ (cumsumAux acc l).Pairwise oLeQ := by
  induction l with
  | nil => exact fun acc _ => ⟨by simp [cumsumAux], by simp [cumsumAux]⟩
  | cons a t ih =>
    intro acc h
    have h' : ∀ v : ℚ, some v ∈ t → 0 ≤ v := fun v hv => h v (List.mem_cons_of_mem _ hv)
    cases a with
    | none =>
      obtain ⟨ih1, ih2⟩ := ih acc h'
      refine ⟨?_, ?_⟩
      · intro y hy
        rcases List.mem_cons.mp hy with hy0 | hy1
        · cases hy0
        · exact ih1 y hy1
      · exact List.Pairwise.cons (fun b _ x y hx _ => by cases hx) ih2
    | some v =>
      have hv0 : 0 ≤ v := h v (List.mem_cons_self _ _)
      obtain ⟨ih1, ih2⟩ := ih (acc + v) h'
      refine ⟨?_, ?_⟩
      · intro y hy
        rcases List.mem_cons.mp hy with hy0 | hy1
        · cases hy0
          exact le_add_of_nonneg_right hv0
        · exact le_trans (le_add_of_nonneg_right hv0) (ih1 y hy1)
      · refine List.Pairwise.cons ?_ ih2
        intro b hb x y hx hy
        cases hx
        exact ih1 y (hy ▸ hb)

/-- Claim C5: the cumulative series (`cumsum`, used for the cumulative table
over each hourly site column) is the running sum of the series — entry `i`
is the sum of the non-null values among the first `i+1` entries whenever
entry `i` is non-null, null where the hourly entry is null — and whenever
every non-null hourly value is non-negative, the non-null cumulative entries
are monotonically non-decreasing. -/
theorem C5_cumulative (l : List (Option ℚ)) :
    (cumsum l).length = l.length
    ∧ (∀ i : ℕ, (cumsum l)[i]? =
        (l[i]?).map fun c => c.map fun _ => (nonNulls (l.take (i + 1))).sum)
    ∧ ((∀ v : ℚ, some v ∈ l → 0 ≤ v) → (cumsum l).Pairwise oLeQ) := by
  refine ⟨cumsumAux_length 0 l, ?_, fun h => (cumsumAux_mono l 0 h).2⟩
  intro i
  simpa using cumsumAux_getElem? 0 l i

/-- Witness for C5 at a concrete hourly series with a gap. -/
theorem C5_cumulative_witness :
    (cumsum [some 1, none, some 2]).length = ([some 1, none, some 2] : List (Option ℚ)).length
    ∧ (∀ i : ℕ, (cumsum [some 1, none, some 2])[i]? =
        (([some (1:ℚ), none, some 2] : List (Option ℚ))[i]?).map fun c =>
          c.map fun _ => (nonNulls (([some (1:ℚ), none, some 2]).take (i + 1))).sum)
    ∧ ((∀ v : ℚ, some v ∈ ([some 1, none, some 2] : List (Option ℚ)) → 0 ≤ v) →
        (cumsum [some 1, none, some 2]).Pairwise oLeQ) :=
  C5_cumulative [some 1, none, some 2]

lemma maxQ_eq_none {l : List (Option ℚ)} (h : nonNulls l = []) : maxQ l = none := by
  unfold maxQ
  rw [h]

/-- Claim C6: the rolling-window sums behind `max_6h` and `max_24h`
(`maxQ (rollingSum w ·)` inside `siteSummary`) produce a value at position
`i` only when the full window of `w` prior hours exists (`w ≤ i+1`), and are
null whenever it does not; consequently the rolling 24-hour maximum is null
whenever fewer than 24 hourly buckets exist. -/
theorem C6_rolling (w : ℕ) (xs : List (Option ℚ)) :
    (∀ i : ℕ, ∀ v : ℚ, (rollingSum w xs)[i]? = some (some v) → w ≤ i + 1)
    ∧ (∀ i : ℕ, i < xs.length → i + 1 < w → (rollingSum w xs)[i]? = some none)
    ∧ (xs.length < 24 → maxQ (rollingSum 24 xs) = none) := by
  refine ⟨?_, ?_, ?_⟩
  · intro i v h
    by_cases hi : i < xs.length
    · rw [rollingSum, List.getElem?_map, List.getElem?_range hi] at h
      by_cases hw : w ≤ i + 1
      · exact hw
      · simp [hw] at h
    · rw [rollingSum, List.getElem?_eq_none (by simpa using Nat.le_of_not_lt hi)] at h
      cases h
  · intro i hi hw
    have hnw : ¬ w ≤ i + 1 := by omega
    rw [rollingSum, List.getElem?_map, List.getElem?_range hi]
    simp [hnw]
  · intro hlen
    refine maxQ_eq_none ((List.filterMap_eq_nil_iff).mpr ?_)
    intro a ha
    rcases List.mem_map.mp ha with ⟨i, hi, rfl⟩
    have hilt : i < xs.length := List.mem_range.mp hi
    have hnw : ¬ 24 ≤ i + 1 := by omega
    simp [hnw]

/-- Witness for C6 at a two-bucket series. -/
theorem C6_rolling_witness :
    (∀ i : ℕ, ∀ v : ℚ, (rollingSum 24 [some 1, some 2])[i]? = some (some v) → 24 ≤ i + 1)
    ∧ (∀ i : ℕ, i < ([some (1:ℚ), some 2] : List (Option ℚ)).length → i + 1 < 24 →
        (rollingSum 24 [some 1, some 2])[i]? = some none)
    ∧ (([some (1:ℚ), some 2] : List (Option ℚ)).length < 24 →
        maxQ (rollingSum 24 [some 1, some 2]) = none) :=
  C6_rolling 24 [some 1, some 2]

lemma sumVals_cons (a : ℕ × Option ℚ) (t : List (ℕ × Option ℚ)) :
    sumVals (a :: t) = a.2.getD 0 + sumVals t := by
  cases h : a.2 <;> simp [sumVals, List.filterMap_cons, h]

lemma sumVals_filter_split (l : List (ℕ × Option ℚ)) (p : ℕ × Option ℚ → Bool) :
    sumVals l = sumVals (l.filter p) + sumVals (l.filter fun x => !(p x)) := by
  induction l with
  | nil => simp [sumVals]
  | cons a t ih =>
    by_cases hp : p a = true <;>
      · simp [List.filter_cons, hp, sumVals_cons, ih]
        ring

lemma partition_buckets (bs : List ℕ) : ∀ l : List (ℕ × Option ℚ), bs.Nodup →
    (∀ x ∈ l, hourOf x.1 ∈ bs) →
    (bs.map fun b => sumVals (l.filter fun x => hourOf x.1 == b)).sum = sumVals l := by
  induction bs with
  | nil =>
    intro l _ hall
    cases l with
    | nil => simp [sumVals]
    | cons a t => exact absurd (hall a (List.mem_cons_self _ _)) (by simp)
  | cons b bs ih =>
    intro l hnd hall
    have hnd' : bs.Nodup := (List.nodup_cons.mp hnd).2
    have hb : b ∉ bs := (List.nodup_cons.mp hnd).1
    have hterm : ∀ b' ∈ bs,
        ((l.filter fun x => !(hourOf x.1 == b)).filter fun x => hourOf x.1 == b')
          = l.filter fun x => hourOf x.1 == b' := by
      intro b' hb'
      rw [List.filter_filter]
      refine List.filter_congr ?_
      intro x _
      by_cases hx : hourOf x.1 = b'
      · have hne : ¬ b' = b := fun hh => hb (hh ▸ hb')
        simp [hx, hne]
      · simp [hx]
    have hall' : ∀ x ∈ l.filter fun x => !(hourOf x.1 == b), hourOf x.1 ∈ bs := by
      intro x hx
      rcases List.mem_filter.mp hx with ⟨hxl, hxb⟩
      rcases List.mem_cons.mp (hall x hxl) with h1 | h1
      · simp [h1] at hxb
      · exact h1
    have hstep := ih (l.filter fun x => !(hourOf x.1 == b)) hnd' hall'
    have hmap : (bs.map fun b' => sumVals (l.filter fun x => hourOf x.1 == b'))
        = bs.map fun b' => sumVals
            ((l.filter fun x => !(hourOf x.1 == b)).filter fun x => hourOf x.1 == b') := by
      refine List.map_congr_left ?_
      intro b' hb'
      rw [hterm b' hb']
    calc ((b :: bs).map fun b' => sumVals (l.filter fun x => hourOf x.1 == b')).sum
        = sumVals (l.filter fun x => hourOf x.1 == b)
          + (bs.map fun b' => sumVals (l.filter fun x => hourOf x.1 == b')).sum := by
          simp
      _ = sumVals (l.filter fun x => hourOf x.1 == b)
          + sumVals (l.filter fun x => !(hourOf x.1 == b)) := by
          rw [hmap, hstep]
      _ = sumVals l := (sumVals_filter_split l _).symm

lemma bucketSum_getD (l : List (ℕ × Option ℚ)) (b : ℕ) :
    (bucketSum l b).getD 0 = sumVals (l.filter fun x => hourOf x.1 == b) := by
  have hcells : nonNulls (bucketCells l b)
      = (l.filter fun x => hourOf x.1 == b).filterMap Prod.snd := by
    simp [bucketCells, nonNulls, List.filterMap_map]
  unfold bucketSum sumMinCount1
  cases hnn : nonNulls (bucketCells l b) with
  | nil =>
    have : sumVals (l.filter fun x => hourOf x.1 == b) = 0 := by
      rw [sumVals, ← hcells, hnn, List.sum_nil]
    simp [this]
  | cons a t =>
    have : sumVals (l.filter fun x => hourOf x.1 == b) = (a :: t).sum := by
      rw [sumVals, ← hcells, hnn]
    simp [this]

lemma foldl_min_bounds (l : List ℕ) : ∀ a : ℕ,
    l.foldl Nat.min a ≤ a ∧ ∀ x ∈ l, l.foldl Nat.min a ≤ x := by
  induction l with
  | nil => intro a; simp
  | cons b t ih =>
    intro a
    obtain ⟨h1, h2⟩ := ih (Nat.min a b)
    refine ⟨le_trans h1 (Nat.min_le_left _ _), ?_⟩
    intro x hx
    rcases List.mem_cons.mp hx with rfl | hx
    · exact le_trans h1 (Nat.min_le_right _ _)
    · exact h2 x hx

lemma foldl_max_bounds (l : List ℕ) : ∀ a : ℕ,
    a ≤ l.foldl Nat.max a ∧ ∀ x ∈ l, x ≤ l.foldl Nat.max a := by
  induction l with
  | nil => intro a; simp
  | cons b t ih =>
    intro a
    obtain ⟨h1, h2⟩ := ih (Nat.max a b)
    refine ⟨le_trans (Nat.le_max_left _ _) h1, ?_⟩
    intro x hx
    rcases List.mem_cons.mp hx with rfl | hx
    · exact le_trans (Nat.le_max_right _ _) h1
    · exact h2 x hx

lemma natMinD_le {l : List ℕ} {x : ℕ} (h : x ∈ l) : natMinD l ≤ x := by
  cases l with
  | nil => cases h
  | cons a t =>
    rcases List.mem_cons.mp h with rfl | hx
    · exact (foldl_min_bounds t x).1
    · exact (foldl_min_bounds t a).2 x hx

lemma le_natMaxD {l : List ℕ} {x : ℕ} (h : x ∈ l) : x ≤ natMaxD l := by
  cases l with
  | nil => cases h
  | cons a t =>
    rcases List.mem_cons.mp h with rfl | hx
    · exact (foldl_max_bounds t x).1
    · exact (foldl_max_bounds t a).2 x hx

lemma mem_hourRangeT {ts : List ℕ} {t : ℕ} (ht : t ∈ ts) : hourOf t ∈ hourRangeT ts := by
  cases ts with
  | nil => cases ht
  | cons a ts' =>
    have hmem : hourOf t ∈ (a :: ts').map hourOf := List.mem_map_of_mem _ ht
    have h1 : natMinD ((a :: ts').map hourOf) ≤ hourOf t := natMinD_le hmem
    have h2 : hourOf t ≤ natMaxD ((a :: ts').map hourOf) := le_natMaxD hmem
    show hourOf t ∈ List.range' (natMinD ((a :: ts').map hourOf))
      (natMaxD ((a :: ts').map hourOf) - natMinD ((a :: ts').map hourOf) + 1)
    rw [List.mem_range'_1]
    omega

lemma nodup_hourRangeT (ts : List ℕ) : (hourRangeT ts).Nodup := by
  cases ts with
  | nil => exact List.nodup_nil
  | cons a ts' =>
    show (List.range' (natMinD ((a :: ts').map hourOf))
      (natMaxD ((a :: ts').map hourOf) - natMinD ((a :: ts').map hourOf) + 1)).Nodup
    exact List.nodup_range' _ _

lemma sumVals_resample (l : List (ℕ × Option ℚ)) :
    sumVals (resampleHourly l) = sumVals l := by
  have hA : ∀ idx : List ℕ,
      sumVals (idx.map fun b => (b, bucketSum l b))
        = (idx.map fun b => (bucketSum l b).getD 0).sum := by
    intro idx
    induction idx with
    | nil => simp [sumVals]
    | cons b t ih => simp [sumVals_cons, ih]
  rw [resampleHourly, hA]
  have hB : ((hourRangeT (l.map Prod.fst)).map fun b => (bucketSum l b).getD 0)
      = (hourRangeT (l.map Prod.fst)).map fun b =>
          sumVals (l.filter fun x => hourOf x.1 == b) := by
    simp only [bucketSum_getD]
  rw [hB]
  refine partition_buckets _ l (nodup_hourRangeT _) ?_
  intro x hx
  exact mem_hourRangeT (List.mem_map_of_mem _ hx)

/-- Claim C10: hourly resampling preserves totals — for every site column of
the frame, the summary's `total` over the resampled hourly series equals the
sum of the column's non-null values in the clean table. -/
theorem C10_total_preserved (f : Frame) (tc n : String) :
    (siteSummary (resampleHourly (seriesOf f tc n))).total
      = (nonNulls (colVals f tc n)).sum := by
  have h1 : (siteSummary (resampleHourly (seriesOf f tc n))).total
      = sumVals (resampleHourly (seriesOf f tc n)) := rfl
  rw [h1, sumVals_resample]
  rw [sumVals, seriesOf, sortByTime, nonNulls, colVals]
  rw [List.filterMap_map, List.filterMap_map]
  exact List.Perm.sum_eq (List.Perm.filterMap _ (List.perm_insertionSort _ _))

lemma pairwise_imp_of_mem {α : Type*} {R S : α → α → Prop} :
    ∀ {l : List α}, (∀ a b, a ∈ l → b ∈ l → R a b → S a b) → l.Pairwise R → l.Pairwise S := by
  intro l
  induction l with
  | nil => exact fun _ _ => List.Pairwise.nil
  | cons a t ih =>
    intro h hp
    rcases List.pairwise_cons.mp hp with ⟨h1, h2⟩
    refine List.Pairwise.cons ?_ (ih ?_ h2)
    · intro b hb
      exact h a b (List.mem_cons_self _ _) (List.mem_cons_of_mem _ hb) (h1 b hb)
    · intro x y hx hy hr
      exact h x y (List.mem_cons_of_mem _ hx) (List.mem_cons_of_mem _ hy) hr

lemma specDesc_of_qGe {a b : QRow} (hsa : a.std.isSome) (hsb : b.std.isSome)
    (hca : a.score.isSome) (hcb : b.score.isSome) (h : qGe a b) : specDesc a b := by
  rcases Option.isSome_iff_exists.mp hsa with ⟨va, hva⟩
  rcases Option.isSome_iff_exists.mp hsb with ⟨vb, hvb⟩
  rcases Option.isSome_iff_exists.mp hca with ⟨sa, hsca⟩
  rcases Option.isSome_iff_exists.mp hcb with ⟨sb, hscb⟩
  refine ⟨sa, sb, va, vb, hsca, hscb, hva, hvb, ?_⟩
  unfold qGe qkey okey at h
  rw [hva, hvb, hsca, hscb] at h
  simp only [Option.isSome_some, Option.getD_some] at h
  rw [Prod.Lex.le_iff] at h
  rcases h with h | ⟨hse, h2⟩
  · rw [Prod.Lex.lt_iff] at h
    rcases h with h | ⟨_, h⟩
    · exact absurd h (lt_irrefl _)
    · exact Or.inl h
  · have hsab : sa = sb := by
      have h' : (true, sb) = (true, sa) := toLex_inj.mp hse
      exact (Prod.ext_iff.mp h').2.symm
    rw [Prod.Lex.le_iff] at h2
    rcases h2 with h2 | ⟨hce, h3⟩
    · exact Or.inr ⟨hsab, Or.inl h2⟩
    · rw [Prod.Lex.le_iff] at h3
      rcases h3 with h3 | ⟨_, h3⟩
      · exact absurd h3 (lt_irrefl _)
      · exact Or.inr ⟨hsab, Or.inr ⟨hce.symm, h3⟩⟩

lemma quality_mem_isSome {sites : List (String × List (Option ℚ))}
    (h : ∀ p ∈ sites, 2 ≤ (nonNulls p.2).length) {r : QRow} (hr : r ∈ quality sites) :
    r.std.isSome ∧ r.score.isSome := by
  have hr' : r ∈ sites.map fun p => qualityRow p.1 p.2 :=
    (List.perm_insertionSort qGe _).mem_iff.mp hr
  rcases List.mem_map.mp hr' with ⟨p, hp, rfl⟩
  have h2 := h p hp
  have hnn : (nonNulls p.2).isEmpty = false := by
    cases hx : nonNulls p.2 with
    | nil => rw [hx] at h2; simp at h2
    | cons a t => rfl
  have hlt : ¬ (nonNulls p.2).length < 2 := by omega
  constructor
  · simp [qualityRow, hnn, pdStd, hlt]
  · simp [qualityRow, hnn, pdStd, hlt]

/-- Claim C1: for every set of retained site columns (each with at least two
non-null values, so that its standard deviation and score are real numbers),
the quality ranking is a permutation of their quality records sorted
descending by (score, completeness, std) in that lexicographic tie-break
order, the chosen gauges are the sites of the first `TOP_N` (= 2) rows of
the ranking, and every chosen row dominates every dropped row in that
order — so top-2 of a 5-column table is the two highest. -/
theorem C1_quality_ranking (sites : List (String × List (Option ℚ)))
    (h : ∀ p ∈ sites, 2 ≤ (nonNulls p.2).length) :
    (quality sites).Perm (sites.map fun p => qualityRow p.1 p.2)
    ∧ (quality sites).Sorted specDesc
    ∧ chosen0Of (quality sites) TOP_N = ((quality sites).take TOP_N).map QRow.site
    ∧ ∀ a ∈ (quality sites).take TOP_N, ∀ b ∈ (quality sites).drop TOP_N, specDesc a b := by
  have hperm := List.perm_insertionSort qGe (sites.map fun p => qualityRow p.1 p.2)
  have hsorted : (quality sites).Sorted qGe := List.sorted_insertionSort qGe _
  have hspec : (quality sites).Sorted specDesc := by
    refine pairwise_imp_of_mem ?_ hsorted
    intro a b ha hb hr
    exact specDesc_of_qGe (quality_mem_isSome h ha).1 (quality_mem_isSome h hb).1
      (quality_mem_isSome h ha).2 (quality_mem_isSome h hb).2 hr
  refine ⟨hperm, hspec, rfl, ?_⟩
  intro a ha b hb
  exact hspec.rel_of_mem_take_of_mem_drop ha hb

/-- Witness for C1 at two concrete retained columns. -/
theorem C1_quality_ranking_witness :
    (quality [("A", [some 1, some 1]), ("B", [some 0, some 2])]).Perm
      (([("A", [some 1, some 1]), ("B", [some 0, some 2])] :
          List (String × List (Option ℚ))).map fun p => qualityRow p.1 p.2)
    ∧ (quality [("A", [some 1, some 1]), ("B", [some 0, some 2])]).Sorted specDesc
    ∧ chosen0Of (quality [("A", [some 1, some 1]), ("B", [some 0, some 2])]) TOP_N
        = ((quality [("A", [some 1, some 1]), ("B", [some 0, some 2])]).take TOP_N).map QRow.site
    ∧ ∀ a ∈ (quality [("A", [some 1, some 1]), ("B", [some 0, some 2])]).take TOP_N,
        ∀ b ∈ (quality [("A", [some 1, some 1]), ("B", [some 0, some 2])]).drop TOP_N,
          specDesc a b :=
  C1_quality_ranking [("A", [some 1, some 1]), ("B", [some 0, some 2])] (by decide)

lemma timeCol_mem {cols : List String} {c : String} (h : timeCol cols = some c) : c ∈ cols := by
  unfold timeCol at h
  cases h1 : cols.find? exactPred with
  | some d => rw [h1] at h; cases h; exact List.mem_of_find?_eq_some h1
  | none =>
    rw [h1] at h
    cases h2 : cols.find? comboPred with
    | some d => rw [h2] at h; cases h; exact List.mem_of_find?_eq_some h2
    | none =>
      rw [h2] at h
      cases h3 : cols.find? loosePred with
      | some d => rw [h3] at h; cases h; exact List.mem_of_find?_eq_some h3
      | none =>
        rw [h3] at h
        cases cols with
        | nil => cases h
        | cons a t =>
          cases h
          exact List.mem_cons_self _ _

lemma cleanF_names_not_unnamed {raw : Frame} {n : String}
    (h : n ∈ (cleanF raw).names) : isUnnamed n = false := by
  have h' := List.of_mem_filter h
  simpa using h'

lemma rename_id {raw : Frame} {tc : String} (htc : timeCol (cleanF raw).names = some tc) :
    renameIfUnnamed (cleanF raw) tc = (cleanF raw, tc) := by
  simp [renameIfUnnamed, cleanF_names_not_unnamed (timeCol_mem htc)]

lemma run_some {cfg : Config} {raw : Frame} {tc : String}
    (htc : timeCol (cleanF raw).names = some tc) :
    run cfg (some raw) = runTail cfg (cleanF raw) tc
      (if timeColFallback (cleanF raw).names then [noTimeWarn] else []) := by
  simp only [run]
  rw [htc]
  simp [rename_id htc]

lemma qualityOf_length (f : Frame) (tc : String) :
    (qualityOf f tc).length = (retainedOf f tc).length := by
  unfold qualityOf quality
  rw [(List.perm_insertionSort qGe _).length_eq, List.length_map, List.length_map]

lemma qualityOf_ne_nil {f : Frame} {tc : String} (hret : retainedOf f tc ≠ []) :
    qualityOf f tc ≠ [] := by
  intro hq
  apply hret
  have h0 : (retainedOf f tc).length = 0 := by
    rw [← qualityOf_length f tc, hq]
    rfl
  exact List.length_eq_zero.mp h0

lemma chosen0_ne_nil {f : Frame} {tc : String} (hret : retainedOf f tc ≠ []) :
    chosen0Of (qualityOf f tc) TOP_N ≠ [] := by
  intro h
  rcases List.take_eq_nil_iff.mp (List.map_eq_nil_iff.mp h) with h2 | h2
  · simp [TOP_N] at h2
  · exact qualityOf_ne_nil hret h2

lemma chosen0_sites {f : Frame} {tc : String} {k : ℕ} {a : String}
    (h : a ∈ chosen0Of (qualityOf f tc) k) : a ∈ retainedOf f tc := by
  unfold chosen0Of at h
  rcases List.mem_map.mp h with ⟨r, hr, rfl⟩
  have hrq : r ∈ qualityOf f tc := List.mem_of_mem_take hr
  unfold qualityOf quality at hrq
  have hr' := (List.perm_insertionSort qGe _).mem_iff.mp hrq
  rcases List.mem_map.mp hr' with ⟨p, hp, rfl⟩
  rcases List.mem_map.mp hp with ⟨n, hn, rfl⟩
  simpa [qualityRow] using hn

lemma retained_not_unnamed {f : Frame} {tc n : String}
    (h : n ∈ retainedOf f tc) : isUnnamed n = false := by
  have h2 := List.of_mem_filter (List.mem_of_mem_filter h)
  simp only [Bool.and_eq_true, Bool.not_eq_true'] at h2
  exact h2.2

lemma chosen_filter_id (f : Frame) (tc : String) (k : ℕ) :
    (chosen0Of (qualityOf f tc) k).filter (fun n => !isUnnamed n)
      = chosen0Of (qualityOf f tc) k := by
  refine List.filter_eq_self.mpr ?_
  intro a ha
  simp [retained_not_unnamed (chosen0_sites ha)]

/-- Claim C9: whenever at least one retained site column exists, the two
fatal branches of gauge selection are unreachable — the quality ranking has
one row per retained site column (so it is nonempty and `chosen` is
nonempty with `TOP_N = 2`), and the placeholder-name filter on the chosen
gauges removes nothing, because site columns already exclude
placeholder-named columns. -/
theorem C9_selection_branches (f : Frame) (tc : String)
    (hret : retainedOf f tc ≠ []) :
    (qualityOf f tc).length = (retainedOf f tc).length
    ∧ qualityOf f tc ≠ []
    ∧ chosen0Of (qualityOf f tc) TOP_N ≠ []
    ∧ (chosen0Of (qualityOf f tc) TOP_N).filter (fun n => !isUnnamed n)
        = chosen0Of (qualityOf f tc) TOP_N :=
  ⟨qualityOf_length f tc, qualityOf_ne_nil hret, chosen0_ne_nil hret,
    chosen_filter_id f tc TOP_N⟩

/-- Witness for C9 at a concrete frame with one retained gauge. -/
theorem C9_selection_branches_witness :
    (qualityOf F1 "data_time_utc").length = (retainedOf F1 "data_time_utc").length
    ∧ qualityOf F1 "data_time_utc" ≠ []
    ∧ chosen0Of (qualityOf F1 "data_time_utc") TOP_N ≠ []
    ∧ (chosen0Of (qualityOf F1 "data_time_utc") TOP_N).filter (fun n => !isUnnamed n)
        = chosen0Of (qualityOf F1 "data_time_utc") TOP_N :=
  C9_selection_branches F1 "data_time_utc" (by decide)

/-- Claim C7: on every fatal condition — missing input file, no usable site
columns at either stage, or an empty quality ranking — the run exits with a
non-zero status and writes no output files. -/
theorem C7_fatal_no_outputs (cfg : Config) (input : Option Frame)
    (h : input = none ∨ ∃ raw tc, input = some raw
        ∧ timeCol (cleanF raw).names = some tc
        ∧ (siteNamesOf (cleanF raw) tc = [] ∨ retainedOf (cleanF raw) tc = []
            ∨ qualityOf (cleanF raw) tc = [])) :
    (run cfg input).exitCode ≠ 0 ∧ (run cfg input).files = [] := by
  rcases h with rfl | ⟨raw, tc, rfl, htc, hcase⟩
  · exact ⟨by simp [run, fatal], by simp [run, fatal]⟩
  · rw [run_some htc]
    rcases hcase with hc | hc | hc
    · constructor <;> simp [runTail, hc, fatal]
    · by_cases h1 : (siteNamesOf (cleanF raw) tc).isEmpty
      · constructor <;> simp [runTail, h1, fatal]
      · constructor <;> simp [runTail, h1, hc, fatal]
    · by_cases h1 : (siteNamesOf (cleanF raw) tc).isEmpty
      · constructor <;> simp [runTail, h1, fatal]
      · by_cases h2 : (retainedOf (cleanF raw) tc).isEmpty
        · constructor <;> simp [runTail, h1, h2, fatal]
        · have hch : (chosen0Of (qualityOf (cleanF raw) tc) TOP_N).isEmpty = true := by
            simp [chosen0Of, hc]
          constructor <;> simp [runTail, h1, h2, hch, fatal]

/-- Witness for C7: the missing-input-file case. -/
theorem C7_fatal_no_outputs_witness :
    (run cfg0 none).exitCode ≠ 0 ∧ (run cfg0 none).files = [] :=
  C7_fatal_no_outputs cfg0 none (Or.inl rfl)

/-- Claim C8: when the event window is enabled and its bounds are missing or
invalid (`none`, the caught-exception path) or no hourly bucket falls inside
them, the run still completes with exit code 0, its event summary is empty
(`none`, so no event file is written), and a warning is printed. -/
theorem C8_event_window (cfg : Config) (raw : Frame) (tc : String)
    (htc : timeCol (cleanF raw).names = some tc)
    (hsite : siteNamesOf (cleanF raw) tc ≠ [])
    (hret : retainedOf (cleanF raw) tc ≠ [])
    (hen : cfg.enableEvent = true)
    (hbad : cfg.eventStart = none ∨ cfg.eventEnd = none ∨
      ∀ s e : ℕ, cfg.eventStart = some s → cfg.eventEnd = some e →
        ∀ b ∈ hourIdx (cleanF raw) tc, ¬ (s ≤ 60 * b ∧ 60 * b ≤ e)) :
    (run cfg (some raw)).exitCode = 0
    ∧ (∃ o, (run cfg (some raw)).output = some o ∧ o.event = none)
    ∧ (sliceWarn ∈ (run cfg (some raw)).warnings
        ∨ emptyEvtWarn ∈ (run cfg (some raw)).warnings) := by
  rw [run_some htc]
  have h1 : (siteNamesOf (cleanF raw) tc).isEmpty = false := by
    simpa [List.isEmpty_iff] using hsite
  have h2 : (retainedOf (cleanF raw) tc).isEmpty = false := by
    simpa [List.isEmpty_iff] using hret
  have h3 : (chosen0Of (qualityOf (cleanF raw) tc) TOP_N).isEmpty = false := by
    simpa [List.isEmpty_iff] using chosen0_ne_nil hret
  have h4 : ((chosen0Of (qualityOf (cleanF raw) tc) TOP_N).filter
      fun n => !isUnnamed n).isEmpty = false := by
    rw [chosen_filter_id]
    exact h3
  cases hs : cfg.eventStart with
  | none =>
    refine ⟨?_, ?_, ?_⟩ <;>
      simp [runTail, h1, h2, h3, h4, hen, hs, chosen_filter_id]
  | some s =>
    cases he : cfg.eventEnd with
    | none =>
      refine ⟨?_, ?_, ?_⟩ <;>
        simp [runTail, h1, h2, h3, h4, hen, hs, he, chosen_filter_id]
    | some e =>
      have hflt : (hourIdx (cleanF raw) tc).filter
          (fun b => decide (s ≤ 60 * b) && decide (60 * b ≤ e)) = [] := by
        rcases hbad with hb | hb | hb
        · rw [hs] at hb; cases hb
        · rw [he] at hb; cases hb
        · refine List.filter_eq_nil_iff.mpr ?_
          intro b hbmem
          have := hb s e hs he b hbmem
          simpa [decide_eq_true_eq] using this
      refine ⟨?_, ?_, ?_⟩ <;>
        simp [runTail, h1, h2, h3, h4, hen, hs, he, hflt, chosen_filter_id]

/-- Witness for C8: a healthy single-gauge frame, event window enabled with
invalid bounds. -/
theorem C8_event_window_witness :
    (run cfg1 (some F1)).exitCode = 0
    ∧ (∃ o, (run cfg1 (some F1)).output = some o ∧ o.event = none)
    ∧ (sliceWarn ∈ (run cfg1 (some F1)).warnings
        ∨ emptyEvtWarn ∈ (run cfg1 (some F1)).warnings) :=
  C8_event_window cfg1 F1 "data_time_utc" (by decide) (by decide) (by decide) rfl
    (Or.inl rfl)

end Floods
